import Mathlib

/-!
Shallow embedding of the geometry and render-state subsystem of the
pong-arcadehack repository (`src/sfml.h`, `src/game.cpp`).

Machine `float` arithmetic is modelled exactly over `ℚ`; `std::uint8_t`
colour channels are modelled as `ℕ` (values below 256); nullable
texture/shader references are modelled as `Option ℕ` identities.
-/

namespace SFML

/-- 2D vector with rational coordinates (embeds `sf::Vector2f`). -/
structure Vector2 where
  x : ℚ
  y : ℚ
deriving DecidableEq, Repr

/-- `sf::Transform`: the nine 2D-relevant entries of the packed 4×4 matrix.
The C++ constructor `Transform(a00, a01, a02, a10, a11, a12, a20, a21, a22)`
stores `m_matrix[0]=a00, m_matrix[4]=a01, m_matrix[12]=a02, m_matrix[1]=a10,
m_matrix[5]=a11, m_matrix[13]=a12, m_matrix[3]=a20, m_matrix[7]=a21,
m_matrix[15]=a22`; every member function reads exactly these nine cells, so
the structure fields are those cells in constructor order. -/
structure Transform where
  a00 : ℚ
  a01 : ℚ
  a02 : ℚ
  a10 : ℚ
  a11 : ℚ
  a12 : ℚ
  a20 : ℚ
  a21 : ℚ
  a22 : ℚ
deriving DecidableEq, Repr

/-- The default-constructed transform (`sf::Transform::Identity`,
`m_matrix` initialised to the 4×4 identity). -/
def Transform.identity : Transform :=
  ⟨1, 0, 0, 0, 1, 0, 0, 0, 1⟩

/-- `Transform::transformPoint` (src/sfml.h:7622-7626): reads
`m_matrix[0], m_matrix[4], m_matrix[12]` for x and
`m_matrix[1], m_matrix[5], m_matrix[13]` for y. -/
def Transform.transformPoint (t : Transform) (point : Vector2) : Vector2 :=
  ⟨t.a00 * point.x + t.a01 * point.y + t.a02,
   t.a10 * point.x + t.a11 * point.y + t.a12⟩

/-- `Transform::combine` (src/sfml.h:7660-7678), entry by entry from the
source with the `m_matrix` index mapping spelled out above. -/
def Transform.combine (a b : Transform) : Transform :=
  ⟨a.a00 * b.a00 + a.a01 * b.a10 + a.a02 * b.a20,
   a.a00 * b.a01 + a.a01 * b.a11 + a.a02 * b.a21,
   a.a00 * b.a02 + a.a01 * b.a12 + a.a02 * b.a22,
   a.a10 * b.a00 + a.a11 * b.a10 + a.a12 * b.a20,
   a.a10 * b.a01 + a.a11 * b.a11 + a.a12 * b.a21,
   a.a10 * b.a02 + a.a11 * b.a12 + a.a12 * b.a22,
   a.a20 * b.a00 + a.a21 * b.a10 + a.a22 * b.a20,
   a.a20 * b.a01 + a.a21 * b.a11 + a.a22 * b.a21,
   a.a20 * b.a02 + a.a21 * b.a12 + a.a22 * b.a22⟩

/-- The determinant computed at the top of `Transform::getInverse`
(src/sfml.h:7593-7595), translated cell by cell. -/
def Transform.determinant (t : Transform) : ℚ :=
  t.a00 * (t.a22 * t.a11 - t.a21 * t.a12) -
  t.a10 * (t.a22 * t.a01 - t.a21 * t.a02) +
  t.a20 * (t.a12 * t.a01 - t.a11 * t.a02)

/-- `Transform::getInverse` (src/sfml.h:7589-7618): cofactor inverse when the
determinant is nonzero (exact comparison, no epsilon), identity otherwise. -/
def Transform.getInverse (t : Transform) : Transform :=
  if t.determinant ≠ 0 then
    ⟨ (t.a22 * t.a11 - t.a21 * t.a12) / t.determinant,
     -(t.a22 * t.a01 - t.a21 * t.a02) / t.determinant,
      (t.a12 * t.a01 - t.a11 * t.a02) / t.determinant,
     -(t.a22 * t.a10 - t.a20 * t.a12) / t.determinant,
      (t.a22 * t.a00 - t.a20 * t.a02) / t.determinant,
     -(t.a12 * t.a00 - t.a10 * t.a02) / t.determinant,
      (t.a21 * t.a10 - t.a20 * t.a11) / t.determinant,
     -(t.a21 * t.a00 - t.a20 * t.a01) / t.determinant,
      (t.a11 * t.a00 - t.a10 * t.a01) / t.determinant⟩
  else
    Transform.identity

/-- `Transform::translate` (src/sfml.h:7682-7691): combine with the
translation matrix. -/
def Transform.translate (t : Transform) (offset : Vector2) : Transform :=
  t.combine ⟨1, 0, offset.x, 0, 1, offset.y, 0, 0, 1⟩

/-- `Transform::scale(factors)` (src/sfml.h:7695-7704): combine with the
origin-centred scaling matrix. -/
def Transform.scale (t : Transform) (factors : Vector2) : Transform :=
  t.combine ⟨factors.x, 0, 0, 0, factors.y, 0, 0, 0, 1⟩

/-- `Transform::scale(factors, center)` (src/sfml.h:7708-7717): combine with
the single closed-form scaling-about-center matrix. -/
def Transform.scaleCenter (t : Transform) (factors center : Vector2) : Transform :=
  t.combine ⟨factors.x, 0, center.x * (1 - factors.x),
             0, factors.y, center.y * (1 - factors.y),
             0, 0, 1⟩

/-- Truncation toward zero, the behaviour of the C++ cast
`static_cast<int>(q)` on a real value. -/
def truncToInt (q : ℚ) : ℤ :=
  if 0 ≤ q then ⌊q⌋ else ⌈q⌉

/-- `sf::priv::positiveRemainder` (src/sfml.h:587-595):
`val = a - static_cast<int>(a / b) * b`, then `val` if `val >= 0`
else `val + b`.  The source asserts the precondition `b > 0`. -/
def positiveRemainder (a b : ℚ) : ℚ :=
  let val := a - (truncToInt (a / b) : ℚ) * b
  if 0 ≤ val then val else val + b

/-- `sf::Angle`: value stored as degrees (`float m_degrees`). -/
structure Angle where
  m_degrees : ℚ
deriving DecidableEq, Repr

/-- `sf::degrees`: builds an angle from a number of degrees. -/
def degrees (angle : ℚ) : Angle :=
  ⟨angle⟩

/-- `Angle::asDegrees`. -/
def Angle.asDegrees (a : Angle) : ℚ :=
  a.m_degrees

/-- `Angle::wrapSigned` (src/sfml.h:618-621):
`degrees(positiveRemainder(m_degrees + 180, 360) - 180)`. -/
def Angle.wrapSigned (a : Angle) : Angle :=
  degrees (positiveRemainder (a.m_degrees + 180) 360 - 180)

/-- Modelled from the spec: the body of `Angle::wrapUnsigned` is not in
`src/` (only its declaration, src/sfml.h:244).  The spec requires the
canonical representative in `[0°,360°)` of the same rotation, which is
`positiveRemainder(m_degrees, 360)`. -/
def Angle.wrapUnsigned (a : Angle) : Angle :=
  degrees (positiveRemainder a.m_degrees 360)

/-- Modelled from the spec: the body of `operator%(Angle, Angle)` is not in
`src/` (only its declaration and doc comment, src/sfml.h:502-520).  The spec
and the declaration's doc define it as the Euclidean-style non-negative
remainder with a strictly positive right operand, i.e.
`degrees(positiveRemainder(left degrees, right degrees))`. -/
def Angle.mod (l r : Angle) : Angle :=
  degrees (positiveRemainder l.m_degrees r.m_degrees)

/-- `sf::Color`: four `std::uint8_t` channels, modelled as `ℕ`. -/
structure Color where
  r : ℕ
  g : ℕ
  b : ℕ
  a : ℕ
deriving DecidableEq, Repr

/-- `Color::Cyan` (src/sfml.h:6971): `Color(0, 255, 255)` with default
alpha 255. -/
def Color.cyan : Color :=
  ⟨0, 255, 255, 255⟩

/-- The `clampedAdd` lambda inside `operator+(Color, Color)`
(src/sfml.h:6892-6896): `intResult < 255 ? intResult : 255`. -/
def clampedAdd (lhs rhs : ℕ) : ℕ :=
  let intResult := lhs + rhs
  if intResult < 255 then intResult else 255

/-- The `clampedSub` lambda inside `operator-(Color, Color)`
(src/sfml.h:6908-6912): computed in `int`, `intResult > 0 ? intResult : 0`. -/
def clampedSub (lhs rhs : ℕ) : ℕ :=
  let intResult : ℤ := (lhs : ℤ) - (rhs : ℤ)
  if 0 < intResult then intResult.toNat else 0

/-- The `scaledMul` lambda inside `operator*(Color, Color)`
(src/sfml.h:6924-6928): `uint16` product divided by 255. -/
def scaledMul (lhs rhs : ℕ) : ℕ :=
  lhs * rhs / 255

/-- `operator+(Color, Color)` (src/sfml.h:6890-6902). -/
def Color.add (left right : Color) : Color :=
  ⟨clampedAdd left.r right.r, clampedAdd left.g right.g,
   clampedAdd left.b right.b, clampedAdd left.a right.a⟩

/-- `operator-(Color, Color)` (src/sfml.h:6906-6918). -/
def Color.sub (left right : Color) : Color :=
  ⟨clampedSub left.r right.r, clampedSub left.g right.g,
   clampedSub left.b right.b, clampedSub left.a right.a⟩

/-- `operator*(Color, Color)` (src/sfml.h:6922-6934). -/
def Color.mul (left right : Color) : Color :=
  ⟨scaledMul left.r right.r, scaledMul left.g right.g,
   scaledMul left.b right.b, scaledMul left.a right.a⟩

/-- `sf::Rect<T>` at `T = float`, coordinates modelled as `ℚ`:
(left, top, width, height), width/height possibly negative. -/
structure Rect where
  left : ℚ
  top : ℚ
  width : ℚ
  height : ℚ
deriving DecidableEq, Repr

/-- The local `min` lambda of `Rect::contains` / `Rect::findIntersection`:
`(a < b) ? a : b`. -/
def rmin (a b : ℚ) : ℚ :=
  if a < b then a else b

/-- The local `max` lambda of `Rect::contains` / `Rect::findIntersection`:
`(a < b) ? b : a`. -/
def rmax (a b : ℚ) : ℚ :=
  if a < b then b else a

/-- `Rect::contains` (src/sfml.h:7157-7173): normalize min/max per axis,
then test the half-open intervals. -/
def Rect.contains (rct : Rect) (point : Vector2) : Bool :=
  let minX := rmin rct.left (rct.left + rct.width)
  let maxX := rmax rct.left (rct.left + rct.width)
  let minY := rmin rct.top (rct.top + rct.height)
  let maxY := rmax rct.top (rct.top + rct.height)
  decide (point.x ≥ minX) && decide (point.x < maxX) &&
    decide (point.y ≥ minY) && decide (point.y < maxY)

/-- `Rect::findIntersection` (src/sfml.h:7178-7213): normalize both
rectangles per axis, intersect, return the rectangle only when it has
strictly positive extent on both axes. -/
def Rect.findIntersection (rct rectangle : Rect) : Option Rect :=
  let r1MinX := rmin rct.left (rct.left + rct.width)
  let r1MaxX := rmax rct.left (rct.left + rct.width)
  let r1MinY := rmin rct.top (rct.top + rct.height)
  let r1MaxY := rmax rct.top (rct.top + rct.height)
  let r2MinX := rmin rectangle.left (rectangle.left + rectangle.width)
  let r2MaxX := rmax rectangle.left (rectangle.left + rectangle.width)
  let r2MinY := rmin rectangle.top (rectangle.top + rectangle.height)
  let r2MaxY := rmax rectangle.top (rectangle.top + rectangle.height)
  let interLeft := rmax r1MinX r2MinX
  let interTop := rmax r1MinY r2MinY
  let interRight := rmin r1MaxX r2MaxX
  let interBottom := rmin r1MaxY r2MaxY
  if interLeft < interRight ∧ interTop < interBottom then
    some ⟨interLeft, interTop, interRight - interLeft, interBottom - interTop⟩
  else
    none

/-- `sf::BlendMode::Factor` (src/sfml.h:6534-6546). -/
inductive Factor where
  | Zero
  | One
  | SrcColor
  | OneMinusSrcColor
  | DstColor
  | OneMinusDstColor
  | SrcAlpha
  | OneMinusSrcAlpha
  | DstAlpha
  | OneMinusDstAlpha
deriving DecidableEq, Repr

/-- `sf::BlendMode::Equation` (src/sfml.h:6554-6561). -/
inductive Equation where
  | Add
  | Subtract
  | ReverseSubtract
  | Min
  | Max
deriving DecidableEq, Repr

/-- `sf::BlendMode` (src/sfml.h:6526-6611): factors and equations for the
colour and alpha channels; `operator==` compares all six members. -/
structure BlendMode where
  colorSrcFactor : Factor
  colorDstFactor : Factor
  colorEquation : Equation
  alphaSrcFactor : Factor
  alphaDstFactor : Factor
  alphaEquation : Equation
deriving DecidableEq, Repr

/-- The default-constructed `sf::BlendMode` (alpha blending, the member
initialisers at src/sfml.h:6605-6610), i.e. `sf::BlendAlpha`. -/
def BlendMode.blendAlpha : BlendMode :=
  ⟨Factor.SrcAlpha, Factor.OneMinusSrcAlpha, Equation.Add,
   Factor.One, Factor.OneMinusSrcAlpha, Equation.Add⟩

/-- The draw-relevant part of `sf::RenderStates`: blend mode, transform and
the nullable texture/shader references (modelled by their identities, the
spec says textures and shaders are compared by identity for cache diffing). -/
structure RenderStates where
  blendMode : BlendMode
  transform : Transform
  texture : Option ℕ
  shader : Option ℕ
deriving DecidableEq, Repr

/-- The state-diffing fields of `RenderTarget::StatesCache`
(src/sfml.h:8608-8620 declares `lastBlendMode` and `lastTextureId`).
Modelled from the spec: the bodies of `setupDraw`/`applyTexture`/
`applyShader` are not in `src/` and the spec's diffing protocol covers the
blend mode, the texture and the shader, so a last-applied shader identity is
modelled alongside the two cache fields the source declares. -/
structure StatesCache where
  lastBlendMode : BlendMode
  lastTextureId : Option ℕ
  lastShaderId : Option ℕ
deriving DecidableEq, Repr

/-- A low-level graphics-API state-change emission. -/
inductive GLCall where
  | setBlendMode (mode : BlendMode)
  | bindTexture (textureId : Option ℕ)
  | bindShader (shaderId : Option ℕ)
deriving DecidableEq, Repr

/-- The cache state recording the applied values of a draw request. -/
def appliedCache (states : RenderStates) : StatesCache :=
  ⟨states.blendMode, states.texture, states.shader⟩

/-- Modelled from the spec: the body of `RenderTarget::setupDraw`
(declared at src/sfml.h:8584) is not in `src/`.  Spec §4.3: diff the
requested `RenderStates` (blend mode, texture, shader) against the cache's
last-applied values, emit state-change operations only for fields that
differ, then record the applied values into the cache. -/
def setupDraw (cache : StatesCache) (states : RenderStates) :
    List GLCall × StatesCache :=
  let blendOps :=
    if states.blendMode = cache.lastBlendMode then []
    else [GLCall.setBlendMode states.blendMode]
  let textureOps :=
    if states.texture = cache.lastTextureId then []
    else [GLCall.bindTexture states.texture]
  let shaderOps :=
    if states.shader = cache.lastShaderId then []
    else [GLCall.bindShader states.shader]
  (blendOps ++ textureOps ++ shaderOps, appliedCache states)

/-- A sequence of draw calls against one target: each draw runs the
state-diffing step and threads the cache; the emitted state changes are
concatenated in call order. -/
def drawSequence : StatesCache → List RenderStates → List GLCall × StatesCache
  | cache, [] => ([], cache)
  | cache, states :: rest =>
      let step := setupDraw cache states
      let tail := drawSequence step.2 rest
      (step.1 ++ tail.1, tail.2)

/-- `sf::Event::EventType`, reduced to what `main` inspects: the `Closed`
event versus anything else (src/sfml.h:6418-6421, src/game.cpp:17). -/
inductive Event where
  | closed
  | other
deriving DecidableEq, Repr

/-- An observable operation of the application's render loop
(src/game.cpp:21-30). -/
inductive AppOp where
  | clear (color : Color)
  | drawSprite
  | display
deriving DecidableEq, Repr

/-- The event-polling loop of `main` (src/game.cpp:15-19): a `Closed` event
closes the window (clears the open flag); other events leave it unchanged. -/
def processEvents (isOpen : Bool) (events : List Event) : Bool :=
  events.foldl (fun o e => if e = Event.closed then false else o) isOpen

/-- The render loop of `main` (src/game.cpp:12-31), unrolled over a finite
schedule of per-frame event batches: while the window is open, poll the
frame's events, then clear to cyan, draw the sprite and display.  An empty
schedule ends the modelled execution. -/
def renderLoop : Bool → List (List Event) → List AppOp
  | _, [] => []
  | isOpen, frame :: rest =>
      if isOpen then
        AppOp.clear Color.cyan :: AppOp.drawSprite :: AppOp.display ::
          renderLoop (processEvents isOpen frame) rest
      else []

/-- `main` (src/game.cpp:3-36): the window is constructed open; when
`loadFromFile` fails the window is closed before the loop; the loop runs,
and the program returns 0.  The result is the trace of loop operations and
the return code. -/
def mainModel (loadOk : Bool) (frames : List (List Event)) :
    List AppOp × ℕ :=
  let isOpen := true
  let isOpen := if loadOk then isOpen else false
  (renderLoop isOpen frames, 0)

/-! ### Helper lemmas -/

/-- The local ternary `min` of the `Rect` methods agrees with `min`. -/
theorem rmin_eq_min (a b : ℚ) : rmin a b = min a b := by
  unfold rmin
  split_ifs with h
  · exact (min_eq_left h.le).symm
  · exact (min_eq_right (not_lt.mp h)).symm

/-- The local ternary `max` of the `Rect` methods agrees with `max`. -/
theorem rmax_eq_max (a b : ℚ) : rmax a b = max a b := by
  unfold rmax
  split_ifs with h
  · exact (max_eq_right h.le).symm
  · exact (max_eq_left (not_lt.mp h)).symm

/-- For a positive divisor, `positiveRemainder` lands in `[0, b)` and
differs from `a` by an integer multiple of `b`. -/
theorem positiveRemainder_spec (a b : ℚ) (hb : 0 < b) :
    0 ≤ positiveRemainder a b ∧ positiveRemainder a b < b ∧
      ∃ k : ℤ, positiveRemainder a b = a - k * b := by
  have hb0 : b ≠ 0 := ne_of_gt hb
  have hab : a / b * b = a := div_mul_cancel₀ a hb0
  simp only [positiveRemainder, truncToInt]
  by_cases hq : 0 ≤ a / b
  · rw [if_pos hq]
    have h1 : (⌊a / b⌋ : ℚ) ≤ a / b := Int.floor_le _
    have h2 : a / b < ⌊a / b⌋ + 1 := Int.lt_floor_add_one _
    have h1b : (⌊a / b⌋ : ℚ) * b ≤ a := by
      have := mul_le_mul_of_nonneg_right h1 hb.le
      rwa [hab] at this
    have h2b : a < (⌊a / b⌋ : ℚ) * b + b := by
      have := mul_lt_mul_of_pos_right h2 hb
      rw [hab, add_one_mul] at this
      exact this
    have hlow : 0 ≤ a - (⌊a / b⌋ : ℚ) * b := by linarith
    rw [if_pos hlow]
    exact ⟨hlow, by linarith, ⟨⌊a / b⌋, rfl⟩⟩
  · rw [if_neg hq]
    have h1 : a / b ≤ (⌈a / b⌉ : ℚ) := Int.le_ceil _
    have h2 : (⌈a / b⌉ : ℚ) < a / b + 1 := Int.ceil_lt_add_one _
    have h1c : a ≤ (⌈a / b⌉ : ℚ) * b := by
      have := mul_le_mul_of_nonneg_right h1 hb.le
      rwa [hab] at this
    have h2c : (⌈a / b⌉ : ℚ) * b < a + b := by
      have := mul_lt_mul_of_pos_right h2 hb
      rw [add_one_mul, hab] at this
      exact this
    by_cases hv : 0 ≤ a - (⌈a / b⌉ : ℚ) * b
    · rw [if_pos hv]
      exact ⟨hv, by linarith, ⟨⌈a / b⌉, rfl⟩⟩
    · rw [if_neg hv]
      refine ⟨by linarith, by linarith, ⟨⌈a / b⌉ - 1, ?_⟩⟩
      push_cast
      ring

/-! ### Claims -/

/-- Claim C1 (counterexample): the combine/transformPoint composition law
fails for a second operand whose projective row is not `(0, 0, 1)`: with
`A = Transform(1,0,1, 0,1,0, 0,0,1)` (a translation) and
`B = Transform(1,0,0, 0,1,0, 1,0,1)`, at the point `(1, 0)` the combined
transform yields x-coordinate 3 while applying `B` then `A` yields 2. -/
theorem combine_transformPoint_counterexample :
    ((Transform.mk 1 0 1 0 1 0 0 0 1).combine
        (Transform.mk 1 0 0 0 1 0 1 0 1)).transformPoint ⟨1, 0⟩ ≠
      (Transform.mk 1 0 1 0 1 0 0 0 1).transformPoint
        ((Transform.mk 1 0 0 0 1 0 1 0 1).transformPoint ⟨1, 0⟩) := by
  norm_num [Transform.combine, Transform.transformPoint, Vector2.mk.injEq]

/-- Claim C1 (amended): for every transform `A`, every transform `B` whose
projective row is `(0, 0, 1)` (every affine transform, in particular every
transform built by the translate/rotate/scale API), and every 2D point `p`,
applying the combined transform equals applying `B` first and then `A`:
`(A.combine B).transformPoint p = A.transformPoint (B.transformPoint p)`,
exactly. -/
theorem combine_transformPoint_affine (A B : Transform) (p : Vector2)
    (h20 : B.a20 = 0) (h21 : B.a21 = 0) (h22 : B.a22 = 1) :
    (A.combine B).transformPoint p = A.transformPoint (B.transformPoint p) := by
  simp only [Transform.combine, Transform.transformPoint, h20, h21, h22,
    Vector2.mk.injEq]
  constructor <;> ring

/-- Claim C1 (witness): the amended law at concrete inputs. -/
theorem combine_transformPoint_affine_witness :
    (Transform.mk 2 0 3 0 4 5 0 0 1).a20 = 0 ∧
      (Transform.mk 2 0 3 0 4 5 0 0 1).a21 = 0 ∧
      (Transform.mk 2 0 3 0 4 5 0 0 1).a22 = 1 ∧
      ((Transform.mk 1 2 3 4 5 6 7 8 9).combine
          (Transform.mk 2 0 3 0 4 5 0 0 1)).transformPoint ⟨1, 2⟩ =
        (Transform.mk 1 2 3 4 5 6 7 8 9).transformPoint
          ((Transform.mk 2 0 3 0 4 5 0 0 1).transformPoint ⟨1, 2⟩) :=
  ⟨rfl, rfl, rfl,
   combine_transformPoint_affine (Transform.mk 1 2 3 4 5 6 7 8 9)
     (Transform.mk 2 0 3 0 4 5 0 0 1) ⟨1, 2⟩ rfl rfl rfl⟩

/-- Claim C3: `getInverse` returns the identity transform when the 2D
determinant is exactly zero, and the genuine matrix inverse (two-sided,
under `combine`) whenever the determinant is nonzero. -/
theorem getInverse_spec (t : Transform) :
    (t.determinant = 0 → t.getInverse = Transform.identity) ∧
      (t.determinant ≠ 0 →
        t.getInverse.combine t = Transform.identity ∧
          t.combine t.getInverse = Transform.identity) := by
  constructor
  · intro h
    simp [Transform.getInverse, h]
  · intro h
    have hd : t.a00 * (t.a22 * t.a11 - t.a21 * t.a12) -
        t.a10 * (t.a22 * t.a01 - t.a21 * t.a02) +
        t.a20 * (t.a12 * t.a01 - t.a11 * t.a02) ≠ 0 := by
      simpa [Transform.determinant] using h
    constructor <;>
      · unfold Transform.getInverse
        rw [if_pos h]
        simp only [Transform.combine, Transform.identity, Transform.mk.injEq,
          Transform.determinant]
        refine ⟨?_, ?_, ?_, ?_, ?_, ?_, ?_, ?_, ?_⟩ <;>
          · field_simp [hd]
            ring

/-- Claim C3 (witness): a concrete transform with nonzero determinant whose
computed inverse composes with it to the identity. -/
theorem getInverse_spec_witness :
    (Transform.mk 2 0 0 0 3 0 0 0 1).determinant ≠ 0 ∧
      (Transform.mk 2 0 0 0 3 0 0 0 1).getInverse.combine
          (Transform.mk 2 0 0 0 3 0 0 0 1) = Transform.identity :=
  ⟨by norm_num [Transform.determinant],
   ((getInverse_spec (Transform.mk 2 0 0 0 3 0 0 0 1)).2
       (by norm_num [Transform.determinant])).1⟩

/-- Claim C4: for every starting transform, scale factors and center, the
single closed-form matrix of `scale(factors, center)` combines to exactly
the same transform as the three-step composition
`translate(center)`, `scale(factors)`, `translate(-center)`. -/
theorem scale_center_eq_three_step (t : Transform) (factors center : Vector2) :
    t.scaleCenter factors center =
      ((t.translate center).scale factors).translate ⟨-center.x, -center.y⟩ := by
  simp only [Transform.scaleCenter, Transform.translate, Transform.scale,
    Transform.combine, Transform.mk.injEq]
  refine ⟨?_, ?_, ?_, ?_, ?_, ?_, ?_, ?_, ?_⟩ <;> ring

/-- Claim C5: for every angle `a`, `degrees(a).wrapSigned()` lies in
`[-180, 180)` and `degrees(a).wrapUnsigned()` lies in `[0, 360)`, each
differing from `a` by an integer multiple of 360 degrees; in particular
`degrees(270).wrapSigned() = degrees(-90)`. -/
theorem angle_wrap_ranges (a : ℚ) :
    (-180 ≤ ((degrees a).wrapSigned).asDegrees ∧
        ((degrees a).wrapSigned).asDegrees < 180) ∧
      (0 ≤ ((degrees a).wrapUnsigned).asDegrees ∧
        ((degrees a).wrapUnsigned).asDegrees < 360) ∧
      (∃ k : ℤ, ((degrees a).wrapSigned).asDegrees = a - 360 * k) ∧
      (∃ k : ℤ, ((degrees a).wrapUnsigned).asDegrees = a - 360 * k) ∧
      (degrees 270).wrapSigned = degrees (-90) := by
  obtain ⟨hs0, hs1, k, hk⟩ := positiveRemainder_spec (a + 180) 360 (by norm_num)
  obtain ⟨hu0, hu1, m, hm⟩ := positiveRemainder_spec a 360 (by norm_num)
  simp only [Angle.wrapSigned, Angle.wrapUnsigned, Angle.asDegrees, degrees]
  refine ⟨⟨by linarith, by linarith⟩, ⟨by linarith, by linarith⟩,
    ⟨k, by rw [hk]; ring⟩, ⟨m, by rw [hm]; ring⟩, ?_⟩
  have h : ⌊(450 : ℚ) / 360⌋ = 1 := by norm_num
  norm_num [Angle.wrapSigned, positiveRemainder, truncToInt, degrees, h]

/-- Claim C6: for every pair of angles with a strictly positive right
operand, `operator%` returns the Euclidean-style remainder: non-negative,
below the divisor, and differing from the left operand by an integer
multiple of the divisor; in particular
`degrees(-90) % degrees(40) = degrees(30)`. -/
theorem angle_mod_euclidean (l r : ℚ) (hr : 0 < r) :
    (0 ≤ ((degrees l).mod (degrees r)).asDegrees ∧
        ((degrees l).mod (degrees r)).asDegrees < r ∧
        ∃ k : ℤ, ((degrees l).mod (degrees r)).asDegrees = l - k * r) ∧
      (degrees (-90)).mod (degrees 40) = degrees 30 := by
  obtain ⟨h0, h1, k, hk⟩ := positiveRemainder_spec l r hr
  simp only [Angle.mod, Angle.asDegrees, degrees]
  refine ⟨⟨h0, h1, ⟨k, hk⟩⟩, ?_⟩
  have h : ⌈-((9 : ℚ) / 4)⌉ = -2 := by
    rw [Int.ceil_eq_iff]
    norm_num
  norm_num [Angle.mod, positiveRemainder, truncToInt, degrees, h]

/-- Claim C6 (witness): the Euclidean modulo law applied at
`l = -90`, `r = 40`. -/
theorem angle_mod_euclidean_witness :
    (0 : ℚ) < 40 ∧ (degrees (-90)).mod (degrees 40) = degrees 30 :=
  ⟨by norm_num, (angle_mod_euclidean (-90) 40 (by norm_num)).2⟩

/-- Claim C7: `findIntersection` normalizes each rectangle's min/max per
axis, returns the overlap rectangle exactly when it has strictly positive
width and height, and `none` otherwise; in particular
`Rect((0,0),(10,10)).findIntersection(Rect((5,5),(10,10))) =
Rect((5,5),(5,5))`. -/
theorem findIntersection_normalized (r1 r2 : Rect) :
    (r1.findIntersection r2 =
        if max (min r1.left (r1.left + r1.width)) (min r2.left (r2.left + r2.width)) <
              min (max r1.left (r1.left + r1.width)) (max r2.left (r2.left + r2.width)) ∧
            max (min r1.top (r1.top + r1.height)) (min r2.top (r2.top + r2.height)) <
              min (max r1.top (r1.top + r1.height)) (max r2.top (r2.top + r2.height)) then
          some ⟨max (min r1.left (r1.left + r1.width)) (min r2.left (r2.left + r2.width)),
                max (min r1.top (r1.top + r1.height)) (min r2.top (r2.top + r2.height)),
                min (max r1.left (r1.left + r1.width)) (max r2.left (r2.left + r2.width)) -
                  max (min r1.left (r1.left + r1.width)) (min r2.left (r2.left + r2.width)),
                min (max r1.top (r1.top + r1.height)) (max r2.top (r2.top + r2.height)) -
                  max (min r1.top (r1.top + r1.height)) (min r2.top (r2.top + r2.height))⟩
        else none) ∧
      (Rect.mk 0 0 10 10).findIntersection (Rect.mk 5 5 10 10) =
        some (Rect.mk 5 5 5 5) := by
  constructor
  · simp only [Rect.findIntersection, rmin_eq_min, rmax_eq_max]
  · norm_num [Rect.findIntersection, rmin, rmax]

/-- Claim C10: `contains` tests half-open intervals after per-axis
normalization; a point on the normalized right or bottom edge is never
contained. -/
theorem contains_half_open (r : Rect) (p : Vector2) :
    (r.contains p = true ↔
        (min r.left (r.left + r.width) ≤ p.x ∧
          p.x < max r.left (r.left + r.width) ∧
          min r.top (r.top + r.height) ≤ p.y ∧
          p.y < max r.top (r.top + r.height))) ∧
      r.contains ⟨max r.left (r.left + r.width), p.y⟩ = false ∧
      r.contains ⟨p.x, max r.top (r.top + r.height)⟩ = false := by
  refine ⟨?_, ?_, ?_⟩
  · simp [Rect.contains, rmin_eq_min, rmax_eq_max, ge_iff_le, and_assoc]
  · simp [Rect.contains, rmin_eq_min, rmax_eq_max]
  · simp [Rect.contains, rmin_eq_min, rmax_eq_max]

/-- Claim C8: colour addition clamps each channel at 255, subtraction
clamps at 0 (truncated subtraction), multiplication is the per-channel
product divided by 255; in particular
`Color(250,0,0,255) + Color(10,0,0,0) = Color(255,0,0,255)`. -/
theorem color_ops_saturate (c1 c2 : Color) :
    Color.add c1 c2 =
        ⟨min (c1.r + c2.r) 255, min (c1.g + c2.g) 255,
         min (c1.b + c2.b) 255, min (c1.a + c2.a) 255⟩ ∧
      Color.sub c1 c2 =
        ⟨c1.r - c2.r, c1.g - c2.g, c1.b - c2.b, c1.a - c2.a⟩ ∧
      Color.mul c1 c2 =
        ⟨c1.r * c2.r / 255, c1.g * c2.g / 255,
         c1.b * c2.b / 255, c1.a * c2.a / 255⟩ ∧
      Color.add ⟨250, 0, 0, 255⟩ ⟨10, 0, 0, 0⟩ = ⟨255, 0, 0, 255⟩ := by
  refine ⟨?_, ?_, rfl, by decide⟩
  · simp only [Color.add, clampedAdd, Color.mk.injEq]
    refine ⟨?_, ?_, ?_, ?_⟩ <;> (split_ifs <;> omega)
  · simp only [Color.sub, clampedSub, Color.mk.injEq]
    refine ⟨?_, ?_, ?_, ?_⟩ <;> (split_ifs <;> omega)

/-- Drawing with states whose values are already the cache's last-applied
values emits nothing and leaves the cache unchanged. -/
theorem setupDraw_cached (s : RenderStates) :
    setupDraw (appliedCache s) s = ([], appliedCache s) := by
  simp [setupDraw, appliedCache]

/-- Once the cache holds the applied values of `s`, any further run of
identical draws emits no state change at all. -/
theorem drawSequence_cached (s : RenderStates) (m : ℕ) :
    drawSequence (appliedCache s) (List.replicate m s) = ([], appliedCache s) := by
  induction m with
  | zero => rfl
  | succ n ih => simp [List.replicate_succ, drawSequence, setupDraw_cached, ih]

/-- Claim C2: `N ≥ 1` consecutive draws with identical render states emit
exactly the state changes of the first draw — one emission per differing
field, at most one blend, one texture and one shader change in total, and
none at all when the requested state already equals the cache's
last-applied state. -/
theorem stateCache_idempotent (cache : StatesCache) (s : RenderStates)
    (n : ℕ) (h : 1 ≤ n) :
    (drawSequence cache (List.replicate n s)).1 = (setupDraw cache s).1 ∧
      (drawSequence cache (List.replicate n s)).1.Sublist
        [GLCall.setBlendMode s.blendMode, GLCall.bindTexture s.texture,
         GLCall.bindShader s.shader] ∧
      (cache = appliedCache s →
        (drawSequence cache (List.replicate n s)).1 = []) := by
  obtain ⟨m, rfl⟩ : ∃ m, n = m + 1 := ⟨n - 1, by omega⟩
  have hfirst : (drawSequence cache (List.replicate (m + 1) s)).1 =
      (setupDraw cache s).1 := by
    have h2 : (setupDraw cache s).2 = appliedCache s := rfl
    simp [List.replicate_succ, drawSequence, h2, drawSequence_cached]
  refine ⟨hfirst, ?_, ?_⟩
  · rw [hfirst]
    simp only [setupDraw]
    split_ifs <;> simp
  · intro hc
    rw [hc, drawSequence_cached]

/-- Claim C2 (witness): two consecutive draws with the same states, against
a cache differing only in the bound texture, emit exactly the single
texture binding of the first draw. -/
theorem stateCache_idempotent_witness :
    1 ≤ 2 ∧
      (drawSequence ⟨BlendMode.blendAlpha, none, none⟩
          (List.replicate 2
            ⟨BlendMode.blendAlpha, Transform.identity, some 7, none⟩)).1 =
        (setupDraw ⟨BlendMode.blendAlpha, none, none⟩
          ⟨BlendMode.blendAlpha, Transform.identity, some 7, none⟩).1 :=
  ⟨by norm_num,
   (stateCache_idempotent ⟨BlendMode.blendAlpha, none, none⟩
       ⟨BlendMode.blendAlpha, Transform.identity, some 7, none⟩ 2
       (by norm_num)).1⟩

/-- Claim C9: when the texture load fails, `main` closes the window before
the render loop, so the loop body (clear, draw, display) never executes
for any schedule of events, and the program still returns 0; with a
successful load the loop body does run once per open frame. -/
theorem main_load_failure_silent (frames : List (List Event)) :
    mainModel false frames = ([], 0) ∧
      mainModel true [[]] =
        ([AppOp.clear Color.cyan, AppOp.drawSprite, AppOp.display], 0) := by
  constructor
  · cases frames <;> simp [mainModel, renderLoop]
  · simp [mainModel, renderLoop, processEvents]

end SFML
